import Mathlib

/-!
# Verification of `docker-volume-manager` (`src/main.rs`)

Shallow embedding of the Rust program into Lean 4.

The program backs up and restores docker volumes by invoking the external
`docker` binary.  The embedding models:

* OS strings (`OsStr`) that may or may not be valid text (UTF-8);
* paths as their normalized component sequences (`RustPath`), with the
  `parent`, `ancestors`, `file_name` and `to_str` operations of `std::path::Path`;
* the `NegativeIndex::neg_index` trait implementation on vectors;
* `Vec::dedup` (removal of consecutive duplicates);
* the filesystem, path canonicalization, the gzip/tar decoding collaborator
  and the external runtime as an explicit environment (`Env`);
* `resolve_path`, `get_tar_directory_tree`, `get_tar_top_level_list`,
  `backup` and `restore` as state-passing functions returning an `Outcome`
  (`ok` / returned error / panic) together with the list of runtime
  invocations that were attempted.
-/

set_option maxHeartbeats 1000000

/-- An `OsStr`: either valid text, or raw non-text data (identified by a tag). -/
inductive OsStr
  | text (s : String)
  | nonText (id : Nat)
deriving DecidableEq

/-- `OsStr::to_str`: `some` exactly when the data is valid text. -/
def OsStr.to_str : OsStr → Option String
  | .text s => some s
  | .nonText _ => none

/-- One normalized component of a `std::path::Path` (`Components` view). -/
inductive Component
  | curDir
  | parentDir
  | normal (s : OsStr)
deriving DecidableEq

/-- A path as Rust's normalized component view: an `abs` flag standing for a
leading `RootDir` component, and the remaining component list. -/
structure RustPath where
  abs : Bool
  comps : List Component
deriving DecidableEq

/-- Render one component as text, failing on non-text data. -/
def Component.renderStr : Component → Option String
  | .curDir => some "."
  | .parentDir => some ".."
  | .normal s => s.to_str

/-- Render every component as text, failing if any component is non-text. -/
def compsToStrs : List Component → Option (List String)
  | [] => some []
  | c :: rest =>
    match c.renderStr with
    | none => none
    | some s => (compsToStrs rest).map (s :: ·)

/-- Join rendered components with `/` separators. -/
def joinComps : List String → String
  | [] => ""
  | [s] => s
  | s :: rest => s ++ "/" ++ joinComps rest

/-- `Path::to_str`: the textual form of the path, `none` if any component is
not valid text. -/
def RustPath.to_str (p : RustPath) : Option String :=
  (compsToStrs p.comps).map (fun parts => (if p.abs then "/" else "") ++ joinComps parts)

/-- `Path::parent`: drop the final component; `none` for the empty path and
for the filesystem root. -/
def RustPath.parent (p : RustPath) : Option RustPath :=
  match p.comps with
  | [] => none
  | _ :: _ => some ⟨p.abs, p.comps.dropLast⟩

/-- The iteration of `Path::parent` (dropping the last component) from a
component list down to the empty list, with an explicit iteration budget so the
recursion is structural; the budget never runs out when it starts at the
list's length, since `parent` removes exactly one component per step. -/
def ancestorsFromAux : Nat → List Component → List (List Component)
  | _, [] => [[]]
  | 0, l => [l]
  | fuel + 1, c :: cs => (c :: cs) :: ancestorsFromAux fuel ((c :: cs).dropLast)

/-- The component lists of a path and all its parents, leaf first, ending with
the empty component list (the path `""`, or `/` for absolute paths). -/
def ancestorsFrom (l : List Component) : List (List Component) :=
  ancestorsFromAux l.length l

/-- `Path::ancestors`, collected into a list: the path itself, then each
successive `parent`, leaf first. -/
def RustPath.ancestors (p : RustPath) : List RustPath :=
  (ancestorsFrom p.comps).map (fun cs => ⟨p.abs, cs⟩)

/-- `Path::file_name`: the final component when it is a `Normal` component. -/
def RustPath.file_name (p : RustPath) : Option OsStr :=
  match p.comps.getLast? with
  | some (.normal s) => some s
  | _ => none

/-- The `NegativeIndex` trait implementation for `Vec<T>` from the source:
a signed index, counting from the back when negative, with `None` on
out-of-bounds in either direction. -/
def List.neg_index (l : List α) (index : Int) : Option α :=
  if index < 0 then
    if (l.length : Int) + index < 0 then
      none
    else
      l.get? ((l.length : Int) + index).toNat
  else
    l.get? index.toNat

/-- `Vec::dedup` after its first element has been taken: keep `a`, then skip
elements equal to the last kept one. -/
def dedupFrom (a : String) : List String → List String
  | [] => [a]
  | b :: rest => if a = b then dedupFrom a rest else a :: dedupFrom b rest

/-- `Vec::dedup`: remove consecutive repeated elements, keeping the first of
each run. -/
def vecDedup : List String → List String
  | [] => []
  | a :: rest => dedupFrom a rest

/-- The per-entry volume-name derivation of `get_tar_top_level_list`:
`path.ancestors().collect().neg_index(-3).and_then(file_name).and_then(to_str)`. -/
def entryVolumeName (p : RustPath) : Option String :=
  ((p.ancestors.neg_index (-3)).bind RustPath.file_name).bind OsStr.to_str

/-- The pure core of `get_tar_top_level_list`: derive a volume name from each
entry path, drop entries that yield none, and collapse consecutive
duplicates (`Vec::dedup`). -/
def top_level_from_tree (dir_tree : List RustPath) : List String :=
  vecDedup (dir_tree.filterMap entryVolumeName)

deriving instance DecidableEq for Except

/-- One decoded tar entry: the result of `Entry::path()` (which is fallible). -/
structure TarEntry where
  pathRes : Except String RustPath
deriving DecidableEq

/-- What opening and decoding the file at some path yields: the open may fail,
`Archive::entries()` may fail, or it yields a sequence of per-entry results. -/
inductive TarData
  | openFail (msg : String)
  | entriesFail (msg : String)
  | entries (items : List (Except String TarEntry))
deriving DecidableEq

/-- How the external runtime behaves on one spawned invocation. -/
inductive SpawnResult
  | spawnErr (msg : String)
  | waitErr (msg : String)
  | exited (code : Int)
deriving DecidableEq

/-- The result of running a piece of the program: normal result, returned
error (propagated with `?`), or a panic (`unwrap` failure). -/
inductive Outcome (α : Type)
  | ok (a : α)
  | err (msg : String)
  | panic
deriving DecidableEq

/-- `Outcome.isErr o` is true exactly when `o` is a returned error. -/
def Outcome.isErr : Outcome α → Bool
  | .err _ => true
  | _ => false

/-- The process exit code produced by `fn main` for each outcome: `Ok` exits 0,
a returned boxed error exits 1, a panic exits 101. -/
def processExitCode : Outcome Unit → Nat
  | .ok _ => 0
  | .err _ => 1
  | .panic => 101

/-- The environment: the filesystem (existing files with their contents),
path canonicalization (the canonical form each path string has once the file
exists), the archive-decoding collaborator, and the external runtime. -/
structure Env where
  fs : List (String × String)
  canonMap : List (String × RustPath)
  archives : List (String × TarData)
  runtime : List String → SpawnResult

/-- `Path::exists` in the modelled filesystem. -/
def pathExists (env : Env) (p : String) : Bool :=
  (List.lookup p env.fs).isSome

/-- `std::fs::write`: create or overwrite the file at `p` with `content`. -/
def fsWrite (env : Env) (p : String) (content : String) : Env :=
  { env with fs := (p, content) :: env.fs }

/-- `std::fs::canonicalize`: succeeds only for existing paths, yielding the
canonical absolute form recorded in the environment. -/
def canonicalize (env : Env) (p : String) : Option RustPath :=
  if pathExists env p then List.lookup p env.canonMap else none

/-- The read-only tail of `resolve_path`: canonicalize and split into the
parent directory string and the filename string, with an error at every
fallible step, in the source's order. -/
def resolveCore (env : Env) (path_str : String) : Except String (String × String) :=
  match canonicalize env path_str with
  | none => .error ("Failed to resolve path " ++ path_str)
  | some canonical =>
    match canonical.parent with
    | none => .error ("Failed to get parent path of path: " ++ path_str)
    | some par =>
      match par.to_str with
      | none => .error ("Failed to convert parent path of path to string: " ++ path_str)
      | some parent =>
        match canonical.file_name with
        | none => .error ("Failed to get filename of target path: " ++ path_str)
        | some fnOs =>
          match fnOs.to_str with
          | none => .error ("Failed to convert filename of target path to string: " ++ path_str)
          | some filename => .ok (parent, filename)

/-- `resolve_path` from the source: optionally create an empty file, then
resolve against the (possibly updated) filesystem. -/
def resolve_path (env : Env) (path_str : String) (create : Bool) :
    Env × Except String (String × String) :=
  let env1 := if create && !pathExists env path_str then fsWrite env path_str "" else env
  (env1, resolveCore env1 path_str)

/-- A `std::process::Command` under construction: program plus argument list. -/
structure Command where
  program : String
  argv : List String

/-- `Command::new`. -/
def Command.new (program : String) : Command :=
  ⟨program, []⟩

/-- `Command::arg`. -/
def Command.arg (c : Command) (a : String) : Command :=
  ⟨c.program, c.argv ++ [a]⟩

/-- `Command::args`. -/
def Command.addArgs (c : Command) (as : List String) : Command :=
  ⟨c.program, c.argv ++ as⟩

/-- The docker command assembled by `backup`, given the resolved target. -/
def backupCommand (volume_names : List String) (target_parent_abs target_filename : String) :
    Command :=
  let volume_args := volume_names.map
    (fun volume_name => "--volume=" ++ volume_name ++ ":/input/" ++ volume_name ++ ":ro")
  (((((((((((Command.new "docker").arg "run").arg "--rm").arg
    ("--volume=" ++ target_parent_abs ++ ":/output")).addArgs volume_args).arg
    "alpine").arg "tar").arg "-czf").arg ("/output/" ++ target_filename)).arg
    "-C").arg "/input").arg "."

/-- The full argument list `backup` passes to the external runtime. -/
def backupInvocation (volume_names : List String) (target_parent_abs target_filename : String) :
    List String :=
  (backupCommand volume_names target_parent_abs target_filename).argv

/-- The docker command assembled by `restore`, given the derived volume names
and the resolved source. -/
def restoreCommand (volume_names : List String) (source_parent_abs source_filename : String) :
    Command :=
  let volume_args := volume_names.map
    (fun volume_name => "--volume=" ++ volume_name ++ ":/output/" ++ volume_name ++ ":rw")
  ((((((((((Command.new "docker").arg "run").arg "--rm").arg
    ("--volume=" ++ source_parent_abs ++ ":/input")).addArgs volume_args).arg
    "alpine").arg "tar").arg "-xzf").arg ("/input/" ++ source_filename)).arg
    "-C").arg "/output"

/-- The full argument list `restore` passes to the external runtime. -/
def restoreInvocation (volume_names : List String) (source_parent_abs source_filename : String) :
    List String :=
  (restoreCommand volume_names source_parent_abs source_filename).argv

/-- What `File::open` plus decoding yields for the file at `p`. -/
def openArchive (env : Env) (p : String) : TarData :=
  (List.lookup p env.archives).getD (.openFail ("Failed to open " ++ p))

/-- `collect::<Result<Vec<_>, _>>()`: stop and return the first error. -/
def collectExcept : List (Except String α) → Except String (List α)
  | [] => .ok []
  | .error e :: _ => .error e
  | .ok a :: rest =>
    match collectExcept rest with
    | .error e => .error e
    | .ok l => .ok (a :: l)

/-- The `entry.path().unwrap()` mapping over collected entries: `none` models
the panic raised by `unwrap` on the first undecodable path. -/
def unwrapPaths : List (Except String RustPath) → Option (List RustPath)
  | [] => some []
  | .error _ :: _ => none
  | .ok p :: rest => (unwrapPaths rest).map (p :: ·)

/-- `get_tar_directory_tree` from the source: open and decode the archive,
collect the entry results (first error aborts), then `unwrap` each entry's
path (an undecodable path panics). -/
def get_tar_directory_tree (env : Env) (archive_path : String) : Outcome (List RustPath) :=
  match openArchive env archive_path with
  | .openFail m => .err m
  | .entriesFail m => .err m
  | .entries items =>
    match collectExcept items with
    | .error m => .err m
    | .ok entryList =>
      match unwrapPaths (entryList.map TarEntry.pathRes) with
      | none => .panic
      | some paths => .ok paths

/-- `get_tar_top_level_list` from the source: the directory tree, mapped
through `entryVolumeName`, filtered and deduplicated. -/
def get_tar_top_level_list (env : Env) (archive_path : String) : Outcome (List String) :=
  match get_tar_directory_tree env archive_path with
  | .err m => .err m
  | .panic => .panic
  | .ok dir_tree => .ok (top_level_from_tree dir_tree)

/-- `backup` from the source: resolve the target (creating it), assemble the
docker command, spawn it and wait — discarding the exit status.  The third
result component records the runtime invocations that were attempted. -/
def backup (env : Env) (volume_names : List String) (target_str : String) :
    Env × Outcome Unit × List (List String) :=
  match resolve_path env target_str true with
  | (env1, .error e) => (env1, .err e, [])
  | (env1, .ok (target_parent_abs, target_filename)) =>
    let argv := backupInvocation volume_names target_parent_abs target_filename
    match env1.runtime argv with
    | .spawnErr m => (env1, .err m, [argv])
    | .waitErr m => (env1, .err m, [argv])
    | .exited _ => (env1, .ok (), [argv])

/-- `restore` from the source: derive the volume names from the archive
(first), then resolve the source, assemble the docker command, spawn it and
wait — discarding the exit status.  The third result component records the
runtime invocations that were attempted. -/
def restore (env : Env) (source_str : String) :
    Env × Outcome Unit × List (List String) :=
  match get_tar_top_level_list env source_str with
  | .err m => (env, .err m, [])
  | .panic => (env, .panic, [])
  | .ok volume_names =>
    match resolve_path env source_str false with
    | (env1, .error e) => (env1, .err e, [])
    | (env1, .ok (source_parent_abs, source_filename)) =>
      let argv := restoreInvocation volume_names source_parent_abs source_filename
      match env1.runtime argv with
      | .spawnErr m => (env1, .err m, [argv])
      | .waitErr m => (env1, .err m, [argv])
      | .exited _ => (env1, .ok (), [argv])

/-- Modelled from the spec:  the per-entry derivation as the claim words it —
"the ancestor at index 2 when ancestors are enumerated from the leaf upward
(leaf itself is index 0, its parent index 1, the desired ancestor index 2)",
then that ancestor's final component as text. -/
def specC2Name (p : RustPath) : Option String :=
  ((p.ancestors.get? 2).bind RustPath.file_name).bind OsStr.to_str

/-- Modelled from the spec:  the backup invocation grammar
`run --rm --volume=<parent-of-target>:/output [--volume=<volume>:/input/<volume>:ro]...
<image> tar -czf /output/<target_filename> -C /input .`. -/
def backupGrammar (image : String) (volume_names : List String)
    (target_parent target_filename : String) : List String :=
  ["run", "--rm", "--volume=" ++ target_parent ++ ":/output"]
  ++ volume_names.map (fun v => "--volume=" ++ v ++ ":/input/" ++ v ++ ":ro")
  ++ [image, "tar", "-czf", "/output/" ++ target_filename, "-C", "/input", "."]

/-- Modelled from the spec:  the restore invocation grammar
`run --rm --volume=<parent-of-source>:/input [--volume=<volume>:/output/<volume>:rw]...
<image> tar -xzf /input/<source_filename> -C /output`. -/
def restoreGrammar (image : String) (volume_names : List String)
    (source_parent source_filename : String) : List String :=
  ["run", "--rm", "--volume=" ++ source_parent ++ ":/input"]
  ++ volume_names.map (fun v => "--volume=" ++ v ++ ":/output/" ++ v ++ ":rw")
  ++ [image, "tar", "-xzf", "/input/" ++ source_filename, "-C", "/output"]

/-- The archive entry path `./vol-a/f1`. -/
def pVolA1 : RustPath :=
  ⟨false, [.curDir, .normal (.text "vol-a"), .normal (.text "f1")]⟩

/-- The archive entry path `./vol-a/sub/f2`. -/
def pVolA2 : RustPath :=
  ⟨false, [.curDir, .normal (.text "vol-a"), .normal (.text "sub"), .normal (.text "f2")]⟩

/-- The archive entry path `./vol-b/f3`. -/
def pVolB3 : RustPath :=
  ⟨false, [.curDir, .normal (.text "vol-b"), .normal (.text "f3")]⟩

/-- The bare depth-1 archive entry path `f` (two ancestors: `f` and `""`). -/
def pShallowF : RustPath :=
  ⟨false, [.normal (.text "f")]⟩

/-- The archive entry path `./a/f`. -/
def pAf : RustPath := ⟨false, [.curDir, .normal (.text "a"), .normal (.text "f")]⟩

/-- The archive entry path `./b/g`. -/
def pBg : RustPath := ⟨false, [.curDir, .normal (.text "b"), .normal (.text "g")]⟩

/-- The archive entry path `./a/h`. -/
def pAh : RustPath := ⟨false, [.curDir, .normal (.text "a"), .normal (.text "h")]⟩

/-- An environment whose archive at `s` holds entries
`./vol-a/f1`, `./vol-a/sub/f2`, `./vol-b/f3`. -/
def envVolumes : Env :=
  ⟨[], [],
    [("s", .entries [Except.ok ⟨Except.ok pVolA1⟩, Except.ok ⟨Except.ok pVolA2⟩,
      Except.ok ⟨Except.ok pVolB3⟩])],
    fun _ => .exited 0⟩

/-- An environment whose archive at `s` holds entries of volumes `a`, `b`, `a`
interleaved: `./a/f`, `./b/g`, `./a/h`. -/
def envInterleaved : Env :=
  ⟨[], [],
    [("s", .entries [Except.ok ⟨Except.ok pAf⟩, Except.ok ⟨Except.ok pBg⟩,
      Except.ok ⟨Except.ok pAh⟩])],
    fun _ => .exited 0⟩

/-- An environment whose archive at `s` decodes to a single entry whose path
cannot be decoded as text (`Entry::path()` returns an error). -/
def envPanicPath : Env :=
  ⟨[], [], [("s", .entries [Except.ok ⟨Except.error "bad path"⟩])], fun _ => .exited 0⟩

/-- An environment whose archive at `s` yields one good entry and then a
malformed entry (the iterator itself yields an error), followed by more data. -/
def envIterErr : Env :=
  ⟨[], [],
    [("s", .entries [Except.ok ⟨Except.ok pVolA1⟩, Except.error "corrupt stream",
      Except.ok ⟨Except.error "bad path"⟩])],
    fun _ => .exited 0⟩

/-- An environment where the file at `s` cannot be opened as an archive and
where `s` also fails path resolution (it does not exist in the filesystem). -/
def envOpenFail : Env :=
  ⟨[], [], [("s", .openFail "boom")], fun _ => .exited 0⟩

/-- An environment with an empty filesystem and no canonicalizable paths. -/
def envEmptyFs : Env :=
  ⟨[], [], [], fun _ => .exited 0⟩

/-- The canonical absolute path `/home/a`. -/
def cHomeA : RustPath :=
  ⟨true, [.normal (.text "home"), .normal (.text "a")]⟩

/-- An environment where `a` does not exist yet, but once created
canonicalizes to `/home/a`. -/
def envResolveA : Env :=
  ⟨[], [("a", cHomeA)], [], fun _ => .spawnErr "x"⟩

/-- An environment for a backup of an existing target `t` (canonical `/tmp/t`)
in which the external runtime starts and exits with status 1. -/
def envExitB : Env :=
  ⟨[("t", "old")], [("t", ⟨true, [.normal (.text "tmp"), .normal (.text "t")]⟩)], [],
    fun _ => .exited 1⟩

/-- An environment for a restore from an existing archive `s` (canonical
`/tmp/s`, one entry `./vol-a/f1`) in which the external runtime starts and
exits with status 2. -/
def envExitR : Env :=
  ⟨[("s", "gz")], [("s", ⟨true, [.normal (.text "tmp"), .normal (.text "s")]⟩)],
    [("s", .entries [Except.ok ⟨Except.ok pVolA1⟩])],
    fun _ => .exited 2⟩

/-! ## Helper lemmas -/

/-- `neg_index (-3)` selects the third-from-last element. -/
theorem neg_index_neg_three (l : List α) :
    l.neg_index (-3) = if l.length < 3 then none else l.get? (l.length - 3) := by
  simp only [List.neg_index]
  rw [if_pos (by omega : (-3 : Int) < 0)]
  by_cases h : l.length < 3
  · rw [if_pos (by omega : (l.length : Int) + (-3) < 0), if_pos h]
  · rw [if_neg (by omega : ¬((l.length : Int) + (-3) < 0)), if_neg h]
    have harg : ((l.length : Int) + (-3)).toNat = l.length - 3 := by omega
    rw [harg]

/-- `dedupFrom a l` always starts with `a`. -/
theorem dedupFrom_head (a : String) (l : List String) : ∃ t, dedupFrom a l = a :: t := by
  induction l generalizing a with
  | nil => exact ⟨[], rfl⟩
  | cons b rest ih =>
    by_cases h : a = b
    · obtain ⟨t, ht⟩ := ih a
      exact ⟨t, by rw [dedupFrom, if_pos h, ht]⟩
    · exact ⟨dedupFrom b rest, by rw [dedupFrom, if_neg h]⟩

/-- Every element of `l` survives into `dedupFrom a l`. -/
theorem mem_dedupFrom {x : String} (a : String) (l : List String) (hx : x ∈ l) :
    x ∈ dedupFrom a l := by
  induction l generalizing a with
  | nil => cases hx
  | cons b rest ih =>
    by_cases h : a = b
    · rw [dedupFrom, if_pos h]
      rcases List.mem_cons.mp hx with hxb | hxr
      · obtain ⟨t, ht⟩ := dedupFrom_head a rest
        rw [ht, hxb, ← h]
        exact List.mem_cons_self a t
      · exact ih a hxr
    · rw [dedupFrom, if_neg h]
      rcases List.mem_cons.mp hx with hxb | hxr
      · obtain ⟨t, ht⟩ := dedupFrom_head b rest
        rw [ht, hxb]
        exact List.mem_cons_of_mem a (List.mem_cons_self b t)
      · exact List.mem_cons_of_mem a (ih b hxr)

/-- `dedupFrom` leaves no two equal consecutive elements. -/
theorem chain'_dedupFrom (a : String) (l : List String) :
    (dedupFrom a l).Chain' (fun x y => x ≠ y) := by
  induction l generalizing a with
  | nil => simp [dedupFrom]
  | cons b rest ih =>
    by_cases h : a = b
    · rw [dedupFrom, if_pos h]
      exact ih a
    · rw [dedupFrom, if_neg h]
      obtain ⟨t, ht⟩ := dedupFrom_head b rest
      have hc := ih b
      rw [ht] at hc ⊢
      exact List.chain'_cons.mpr ⟨h, hc⟩

/-- `dedupFrom a l` is a sublist of `a :: l`: nothing is reordered or invented. -/
theorem sublist_dedupFrom (a : String) (l : List String) :
    List.Sublist (dedupFrom a l) (a :: l) := by
  induction l generalizing a with
  | nil => simp [dedupFrom]
  | cons b rest ih =>
    by_cases h : a = b
    · rw [dedupFrom, if_pos h]
      exact (ih a).trans (List.Sublist.cons₂ a (List.sublist_cons_self b rest))
    · rw [dedupFrom, if_neg h]
      exact List.Sublist.cons₂ a (ih b)

/-- A leading run of elements equal to the kept element collapses away. -/
theorem dedupFrom_all_eq (a : String) (pre l : List String) (h : ∀ x ∈ pre, x = a) :
    dedupFrom a (pre ++ l) = dedupFrom a l := by
  induction pre with
  | nil => rfl
  | cons b rest ih =>
    have hb : a = b := (h b (List.mem_cons_self b rest)).symm
    rw [List.cons_append, dedupFrom, if_pos hb]
    exact ih (fun x hx => h x (List.mem_cons_of_mem b hx))

/-- A value whose occurrences are separated by different values appears at
least twice after `vecDedup`. -/
theorem two_le_count_vecDedup (A B C : List String) (v : String)
    (hA : A ≠ []) (hAv : ∀ x ∈ A, x = v) (hB : B ≠ []) (hBv : v ∉ B)
    (hC : C ≠ []) (hCv : ∀ x ∈ C, x = v) :
    2 ≤ (vecDedup (A ++ B ++ C)).count v := by
  obtain ⟨a, A', rfl⟩ := List.exists_cons_of_ne_nil hA
  obtain ⟨b, B', rfl⟩ := List.exists_cons_of_ne_nil hB
  obtain ⟨c, C', rfl⟩ := List.exists_cons_of_ne_nil hC
  have hav : a = v := hAv a (List.mem_cons_self a A')
  have hcv : c = v := hCv c (List.mem_cons_self c C')
  have hbv : v ≠ b := fun hvb => hBv (hvb ▸ List.mem_cons_self b B')
  subst hav
  have hsplit : (a :: A') ++ (b :: B') ++ (c :: C') = a :: (A' ++ ((b :: B') ++ (c :: C'))) := by
    simp
  rw [hsplit, vecDedup,
    dedupFrom_all_eq a A' _ (fun x hx => hAv x (List.mem_cons_of_mem a hx)),
    List.cons_append, dedupFrom, if_neg hbv]
  have hvmem : a ∈ B' ++ c :: C' := List.mem_append_right B' (hcv ▸ List.mem_cons_self c C')
  have hmem : a ∈ dedupFrom b (B' ++ c :: C') := mem_dedupFrom b _ hvmem
  have hcount : 0 < (dedupFrom b (B' ++ c :: C')).count a := List.count_pos_iff.mpr hmem
  rw [List.count_cons_self]
  omega

/-- Collecting results of which each is `ok` yields the full list. -/
theorem collectExcept_map_ok (l : List α) :
    collectExcept (l.map Except.ok) = Except.ok l := by
  induction l with
  | nil => rfl
  | cons a rest ih => rw [List.map_cons, collectExcept, ih]

/-- Collecting stops at the first error and returns it. -/
theorem collectExcept_first_error (pre : List α) (e : String) (post : List (Except String α)) :
    collectExcept (pre.map Except.ok ++ Except.error e :: post) = Except.error e := by
  induction pre with
  | nil => rfl
  | cons a rest ih => rw [List.map_cons, List.cons_append, collectExcept, ih]

/-- Unwrapping path results of which each is `ok` yields the full list. -/
theorem unwrapPaths_map_ok (l : List RustPath) :
    unwrapPaths (l.map Except.ok) = some l := by
  induction l with
  | nil => rfl
  | cons p rest ih => rw [List.map_cons, unwrapPaths, ih]; rfl

/-- Unwrapping a list that contains any path error is a panic. -/
theorem unwrapPaths_error (xs : List (Except String RustPath)) (m : String)
    (ys : List (Except String RustPath)) :
    unwrapPaths (xs ++ Except.error m :: ys) = none := by
  induction xs with
  | nil => rfl
  | cons x rest ih =>
    cases x with
    | error e => rfl
    | ok p => rw [List.cons_append, unwrapPaths, ih]; rfl

/-! ## Claim theorems -/

/-- C10: `neg_index` is total (it is a Lean function, so it cannot panic) and
returns the element at position `i` for `0 ≤ i < length`, the element at
position `length + i` for `-length ≤ i < 0`, and `none` in every other case. -/
theorem neg_index_total_spec {α : Type} (v : List α) (i : Int) :
    (0 ≤ i → i < (v.length : Int) →
      ∃ h : i.toNat < v.length, v.neg_index i = some (v.get ⟨i.toNat, h⟩))
    ∧ (i < 0 → -(v.length : Int) ≤ i →
      ∃ h : ((v.length : Int) + i).toNat < v.length,
        v.neg_index i = some (v.get ⟨((v.length : Int) + i).toNat, h⟩))
    ∧ ((v.length : Int) ≤ i → v.neg_index i = none)
    ∧ (i < -(v.length : Int) → v.neg_index i = none) := by
  refine ⟨?_, ?_, ?_, ?_⟩
  · intro h0 h1
    have hlt : i.toNat < v.length := by omega
    refine ⟨hlt, ?_⟩
    simp only [List.neg_index]
    rw [if_neg (by omega : ¬i < 0)]
    exact List.get?_eq_get hlt
  · intro h0 h2
    have hlt : ((v.length : Int) + i).toNat < v.length := by omega
    refine ⟨hlt, ?_⟩
    simp only [List.neg_index]
    rw [if_pos h0, if_neg (by omega : ¬(v.length : Int) + i < 0)]
    exact List.get?_eq_get hlt
  · intro h
    simp only [List.neg_index]
    rw [if_neg (by omega : ¬i < 0)]
    exact List.get?_eq_none.mpr (by omega)
  · intro h
    simp only [List.neg_index]
    rw [if_pos (by omega : i < 0), if_pos (by omega : (v.length : Int) + i < 0)]

/-- Witness for C10 at `v = [10, 20, 30]` with indices `1`, `-1`, `3`, `-4`. -/
theorem neg_index_total_spec_witness :
    ([10, 20, 30] : List Nat).neg_index 1 = some 20
    ∧ ([10, 20, 30] : List Nat).neg_index (-1) = some 30
    ∧ ([10, 20, 30] : List Nat).neg_index 3 = none
    ∧ ([10, 20, 30] : List Nat).neg_index (-4) = none := by
  refine ⟨?_, ?_, ?_, ?_⟩
  · obtain ⟨h, hp⟩ := (neg_index_total_spec ([10, 20, 30] : List Nat) 1).1
      (by decide) (by decide)
    rw [hp]; rfl
  · obtain ⟨h, hp⟩ := (neg_index_total_spec ([10, 20, 30] : List Nat) (-1)).2.1
      (by decide) (by decide)
    rw [hp]; rfl
  · exact (neg_index_total_spec ([10, 20, 30] : List Nat) 3).2.2.1 (by decide)
  · exact (neg_index_total_spec ([10, 20, 30] : List Nat) (-4)).2.2.2 (by decide)

/-- C2-counterexample: for the archive entry `./vol-a/f1` the code derives
`vol-a`, which is NOT the ancestor at index 2 of the leaf-upward enumeration
(that ancestor is `.`, whose `file_name` is `none`): the claim's indexing
rule disagrees with the code on this entry. -/
theorem volume_name_not_leaf_ancestor_two :
    entryVolumeName pVolA1 = some "vol-a" ∧ specC2Name pVolA1 = none := by
  decide

/-- C2 (amended): `top_level_volume_names` derives, for every entry path, the
component at index 2 counting from the far end of the leaf-upward ancestor
enumeration (the third-from-last ancestor, at position `length - 3`), not
index 2 from the leaf; an entry with fewer than three ancestors contributes
no volume name and causes no error. -/
theorem entry_volume_name_third_from_last (p : RustPath) (l1 l2 : List RustPath) :
    (3 ≤ p.ancestors.length →
      entryVolumeName p =
        ((p.ancestors.get? (p.ancestors.length - 3)).bind RustPath.file_name).bind OsStr.to_str)
    ∧ (p.ancestors.length < 3 → entryVolumeName p = none)
    ∧ (p.ancestors.length < 3 →
        top_level_from_tree (l1 ++ p :: l2) = top_level_from_tree (l1 ++ l2)) := by
  have hni := neg_index_neg_three p.ancestors
  have hnone : p.ancestors.length < 3 → entryVolumeName p = none := by
    intro h3
    unfold entryVolumeName
    rw [hni, if_pos h3]
    rfl
  refine ⟨?_, hnone, ?_⟩
  · intro h3
    unfold entryVolumeName
    rw [hni, if_neg (by omega)]
  · intro h3
    unfold top_level_from_tree
    rw [List.filterMap_append, List.filterMap_append, List.filterMap_cons_none (hnone h3)]

/-- Witness for C2: the deep entry `./vol-a/sub/f2` and the shallow entry `f`
(two ancestors), the latter both alone and inside an entry list. -/
theorem entry_volume_name_third_from_last_witness :
    (entryVolumeName pVolA2 =
      ((pVolA2.ancestors.get? (pVolA2.ancestors.length - 3)).bind RustPath.file_name).bind
        OsStr.to_str)
    ∧ entryVolumeName pShallowF = none
    ∧ top_level_from_tree [pVolA1, pShallowF] = top_level_from_tree [pVolA1] := by
  exact ⟨(entry_volume_name_third_from_last pVolA2 [] []).1 (by decide),
    (entry_volume_name_third_from_last pShallowF [] []).2.1 (by decide),
    (entry_volume_name_third_from_last pShallowF [pVolA1] []).2.2 (by decide)⟩

/-- C8: an archive with entries `./vol-a/f1`, `./vol-a/sub/f2`, `./vol-b/f3`
yields exactly `["vol-a", "vol-b"]`. -/
theorem top_level_example :
    get_tar_top_level_list envVolumes "s" = .ok ["vol-a", "vol-b"] := by
  decide

/-- C7: the derived volume-name list never has two equal consecutive names,
is a sublist of the raw per-entry name sequence (only collapsing, no
reordering), and when a volume's entries are separated by entries of another
volume its name appears at least twice in the output. -/
theorem dedup_adjacent_only (paths : List RustPath) (A B C : List String) (v : String) :
    (top_level_from_tree paths).Chain' (fun x y => x ≠ y)
    ∧ List.Sublist (top_level_from_tree paths) (paths.filterMap entryVolumeName)
    ∧ (paths.filterMap entryVolumeName = A ++ B ++ C → A ≠ [] → (∀ x ∈ A, x = v) →
        B ≠ [] → v ∉ B → C ≠ [] → (∀ x ∈ C, x = v) →
        2 ≤ (top_level_from_tree paths).count v) := by
  refine ⟨?_, ?_, ?_⟩
  · unfold top_level_from_tree
    cases h : paths.filterMap entryVolumeName with
    | nil => simp [vecDedup]
    | cons a t => exact chain'_dedupFrom a t
  · unfold top_level_from_tree
    cases h : paths.filterMap entryVolumeName with
    | nil => simp [vecDedup]
    | cons a t => exact sublist_dedupFrom a t
  · intro heq hA hAv hB hBv hC hCv
    unfold top_level_from_tree
    rw [heq]
    exact two_le_count_vecDedup A B C v hA hAv hB hBv hC hCv

/-- Witness for C7: entries `./a/f`, `./b/g`, `./a/h` interleave volume `a`
around volume `b`, and `a` indeed appears twice, non-adjacently. -/
theorem dedup_adjacent_only_witness :
    2 ≤ (top_level_from_tree [pAf, pBg, pAh]).count "a"
    ∧ top_level_from_tree [pAf, pBg, pAh] = ["a", "b", "a"] := by
  constructor
  · exact (dedup_adjacent_only [pAf, pBg, pAh] ["a"] ["b"] ["a"] "a").2.2 (by decide)
      (by decide) (by decide) (by decide) (by decide) (by decide) (by decide)
  · decide

/-- C4-counterexample: for volumes `["a", "b"]` the backup invocation puts the
output mount BEFORE the per-volume mounts, not after them as the claim
states. -/
theorem backup_mounts_output_first_example :
    backupInvocation ["a", "b"] "/t" "f" =
      ["run", "--rm", "--volume=/t:/output", "--volume=a:/input/a:ro", "--volume=b:/input/b:ro",
        "alpine", "tar", "-czf", "/output/f", "-C", "/input", "."]
    ∧ backupInvocation ["a", "b"] "/t" "f" ≠
      ["run", "--rm", "--volume=a:/input/a:ro", "--volume=b:/input/b:ro", "--volume=/t:/output",
        "alpine", "tar", "-czf", "/output/f", "-C", "/input", "."] := by
  decide

/-- C4 (amended): for every volume list, the backup invocation lists the
output mount for the target's parent directory first, then the per-volume
mount flags in the input volume-name order, with no sorting or shuffling. -/
theorem backup_mount_order (vols : List String) (parent fn : String) :
    backupInvocation vols parent fn =
      ["run", "--rm", "--volume=" ++ parent ++ ":/output"]
      ++ vols.map (fun v => "--volume=" ++ v ++ ":/input/" ++ v ++ ":ro")
      ++ ["alpine", "tar", "-czf", "/output/" ++ fn, "-C", "/input", "."] := by
  simp [backupInvocation, backupCommand, Command.new, Command.arg, Command.addArgs]

/-- C5: for every volume list and resolved path pair, the argument lists
passed to the external runtime match the spec's invocation grammar bit-exact,
with image `alpine`. -/
theorem invocation_matches_grammar (vols : List String) (parent fn : String) :
    backupInvocation vols parent fn = backupGrammar "alpine" vols parent fn
    ∧ restoreInvocation vols parent fn = restoreGrammar "alpine" vols parent fn := by
  constructor <;>
    simp [backupInvocation, backupCommand, restoreInvocation, restoreCommand,
      backupGrammar, restoreGrammar, Command.new, Command.arg, Command.addArgs]

/-- C3-counterexample: an archive whose single entry has an undecodable path
makes the listing abort via a PANIC (the `unwrap` in the source), not via a
returned `ArchiveReadError`. -/
theorem path_decode_failure_panics :
    get_tar_directory_tree envPanicPath "s" = .panic
    ∧ (get_tar_directory_tree envPanicPath "s").isErr = false
    ∧ get_tar_top_level_list envPanicPath "s" = .panic := by
  decide

/-- C3 (amended): listing aborts at the first failure with no partial result:
an open failure, a stream failure and a malformed entry during iteration all
return that error; an entry whose path cannot be decoded as text aborts the
listing via a panic (process abort), not a returned `ArchiveReadError`; only
a fully decodable archive yields the entry list. -/
theorem archive_listing_error_propagation (env : Env) (p : String) :
    (∀ m, openArchive env p = .openFail m →
      get_tar_directory_tree env p = .err m ∧ get_tar_top_level_list env p = .err m)
    ∧ (∀ m, openArchive env p = .entriesFail m →
      get_tar_directory_tree env p = .err m ∧ get_tar_top_level_list env p = .err m)
    ∧ (∀ (pre : List TarEntry) (e : String) (post : List (Except String TarEntry)),
      openArchive env p = .entries (pre.map Except.ok ++ Except.error e :: post) →
      get_tar_directory_tree env p = .err e ∧ get_tar_top_level_list env p = .err e)
    ∧ (∀ (entsL : List TarEntry) (pe : String) (entsR : List TarEntry),
      openArchive env p = .entries ((entsL ++ ⟨Except.error pe⟩ :: entsR).map Except.ok) →
      get_tar_directory_tree env p = .panic ∧ get_tar_top_level_list env p = .panic)
    ∧ (∀ (ents : List TarEntry) (paths : List RustPath),
      openArchive env p = .entries (ents.map Except.ok) →
      ents.map TarEntry.pathRes = paths.map Except.ok →
      get_tar_directory_tree env p = .ok paths) := by
  refine ⟨?_, ?_, ?_, ?_, ?_⟩
  · intro m h
    have h1 : get_tar_directory_tree env p = .err m := by
      simp only [get_tar_directory_tree, h]
    exact ⟨h1, by simp only [get_tar_top_level_list, h1]⟩
  · intro m h
    have h1 : get_tar_directory_tree env p = .err m := by
      simp only [get_tar_directory_tree, h]
    exact ⟨h1, by simp only [get_tar_top_level_list, h1]⟩
  · intro pre e post h
    have h1 : get_tar_directory_tree env p = .err e := by
      simp only [get_tar_directory_tree, h, collectExcept_first_error]
    exact ⟨h1, by simp only [get_tar_top_level_list, h1]⟩
  · intro entsL pe entsR h
    have hc := collectExcept_map_ok (entsL ++ (⟨Except.error pe⟩ : TarEntry) :: entsR)
    have hu : (entsL ++ (⟨Except.error pe⟩ : TarEntry) :: entsR).map TarEntry.pathRes
        = entsL.map TarEntry.pathRes ++ Except.error pe :: entsR.map TarEntry.pathRes := by
      simp
    have h1 : get_tar_directory_tree env p = .panic := by
      simp only [get_tar_directory_tree, h, hc, hu, unwrapPaths_error]
    exact ⟨h1, by simp only [get_tar_top_level_list, h1]⟩
  · intro ents paths h hp
    simp [get_tar_directory_tree, h, collectExcept_map_ok, hp, unwrapPaths_map_ok]

/-- Witness for C3: an unopenable archive, a corrupt stream after one good
entry (the following bad-path entry is never reached), and a fully decodable
archive. -/
theorem archive_listing_error_propagation_witness :
    get_tar_directory_tree envOpenFail "s" = .err "boom"
    ∧ get_tar_directory_tree envIterErr "s" = .err "corrupt stream"
    ∧ get_tar_directory_tree envVolumes "s" = .ok [pVolA1, pVolA2, pVolB3] := by
  refine ⟨((archive_listing_error_propagation envOpenFail "s").1 "boom" (by decide)).1,
    ((archive_listing_error_propagation envIterErr "s").2.2.1 [⟨Except.ok pVolA1⟩]
      "corrupt stream" [Except.ok ⟨Except.error "bad path"⟩] (by decide)).1,
    (archive_listing_error_propagation envVolumes "s").2.2.2.2
      [⟨Except.ok pVolA1⟩, ⟨Except.ok pVolA2⟩, ⟨Except.ok pVolB3⟩]
      [pVolA1, pVolA2, pVolB3] (by decide) (by decide)⟩

/-- C6-counterexample: with a source that both cannot be opened as an archive
and fails path resolution, `restore` surfaces the archive error: inspection
runs BEFORE resolution, contradicting the claimed Resolve-then-Inspect order
under which this input would surface the resolution error. -/
theorem restore_inspects_before_resolving :
    (restore envOpenFail "s").2 = (.err "boom", [])
    ∧ (resolve_path envOpenFail "s" false).2 = .error "Failed to resolve path s"
    ∧ "boom" ≠ "Failed to resolve path s" := by
  decide

/-- C6 (amended): both flows are linear with no retry — at most one runtime
invocation per command — and the first failing stage aborts the command with
no invocation; but in restore the stage order is Inspect → Resolve → Plan →
Execute: an archive-inspection failure is surfaced even when resolution would
also fail, and a resolution failure is surfaced only after inspection
succeeded. -/
theorem flows_linear_inspect_first (env env2 : Env) (s t : String) (vols : List String) :
    (restore env s).2.2.length ≤ 1
    ∧ (backup env2 vols t).2.2.length ≤ 1
    ∧ (∀ m, get_tar_top_level_list env s = .err m → (restore env s).2 = (.err m, []))
    ∧ (get_tar_top_level_list env s = .panic → (restore env s).2 = (.panic, []))
    ∧ (∀ vnames env1 m, get_tar_top_level_list env s = .ok vnames →
        resolve_path env s false = (env1, .error m) → (restore env s).2 = (.err m, []))
    ∧ (∀ env1 m, resolve_path env2 t true = (env1, .error m) →
        (backup env2 vols t).2 = (.err m, [])) := by
  refine ⟨?_, ?_, ?_, ?_, ?_, ?_⟩
  · simp only [restore]
    split
    · simp
    · simp
    · split
      · simp
      · split <;> simp
  · simp only [backup]
    split
    · simp
    · split <;> simp
  · intro m hg
    simp [restore, hg]
  · intro hg
    simp [restore, hg]
  · intro vnames env1 m hg hr
    simp [restore, hg, hr]
  · intro env1 m hr
    simp [backup, hr]

/-- Witness for C6: an inspection failure aborts restore with no invocation,
and a resolution failure aborts backup with no invocation. -/
theorem flows_linear_inspect_first_witness :
    (restore envOpenFail "s").2 = (.err "boom", [])
    ∧ (backup envEmptyFs ["a"] "t").2 = (.err "Failed to resolve path t", []) := by
  refine ⟨(flows_linear_inspect_first envOpenFail envEmptyFs "s" "t" ["a"]).2.2.1 "boom"
      (by decide),
    (flows_linear_inspect_first envOpenFail envEmptyFs "s" "t" ["a"]).2.2.2.2.2
      (fsWrite envEmptyFs "t" "") "Failed to resolve path t" rfl⟩

/-- C9: resolving a non-existing path with `create` first writes an empty
file at it, then behaves exactly as if the path had pre-existed; a second
resolve skips creation (the filesystem is unchanged, nothing is truncated)
and returns the same parent/filename result. -/
theorem resolve_create_idempotent (env : Env) (p : String)
    (h : pathExists env p = false) :
    (resolve_path env p true).1.fs = (p, "") :: env.fs
    ∧ (resolve_path env p true).2 = (resolve_path (fsWrite env p "") p true).2
    ∧ resolve_path ((resolve_path env p true).1) p true = resolve_path env p true := by
  have h1 : resolve_path env p true = (fsWrite env p "", resolveCore (fsWrite env p "") p) := by
    simp [resolve_path, h]
  have hex : pathExists (fsWrite env p "") p = true := by
    simp [pathExists, fsWrite, List.lookup]
  have h2 : resolve_path (fsWrite env p "") p true
      = (fsWrite env p "", resolveCore (fsWrite env p "") p) := by
    simp [resolve_path, hex]
  refine ⟨by rw [h1]; rfl, by rw [h1, h2], by rw [h1]; exact h2⟩

/-- Witness for C9 at a fresh path `a` that canonicalizes to `/home/a` once
created. -/
theorem resolve_create_idempotent_witness :
    pathExists envResolveA "a" = false
    ∧ (resolve_path envResolveA "a" true).1.fs = [("a", "")]
    ∧ (resolve_path envResolveA "a" true).2 = Except.ok ("/home", "a")
    ∧ resolve_path ((resolve_path envResolveA "a" true).1) "a" true
        = resolve_path envResolveA "a" true := by
  have h := resolve_create_idempotent envResolveA "a" (by decide)
  exact ⟨by decide, h.1, by decide, h.2.2⟩

/-- C1 (code evidence): the exit status returned by `wait()` is discarded by
both `backup` and `restore`: with the runtime spawned successfully and
exiting with status 1 (backup) respectively 2 (restore), the program still
returns `Ok` and its own process exit code is 0 — the non-zero status is
neither surfaced nor turned into a failure. -/
theorem runtime_exit_status_ignored :
    envExitB.runtime (backupInvocation ["a"] "/tmp" "t") = .exited 1
    ∧ (backup envExitB ["a"] "t").2.1 = .ok ()
    ∧ processExitCode (backup envExitB ["a"] "t").2.1 = 0
    ∧ (backup envExitB ["a"] "t").2.2 = [backupInvocation ["a"] "/tmp" "t"]
    ∧ envExitR.runtime (restoreInvocation ["vol-a"] "/tmp" "s") = .exited 2
    ∧ (restore envExitR "s").2.1 = .ok ()
    ∧ processExitCode (restore envExitR "s").2.1 = 0 := by
  decide
